import Mathlib

set_option maxRecDepth 8000

/-!
Shallow embedding of the go-tabdeal SDK (github.com/darhelm/go-tabdeal).

The embedding translates, from the Go source:
  * `utils/signature.go`  — `WrapWithSignature` (HMAC-SHA256 request signing),
  * `client.go`           — `NewClient`, `assertAuth`, `createApiURI`, `Request`,
  * the error classifier  — `parseErrorResponse`, `APIError`, `types.ErrorResponse`.

Go's `encoding/json` unmarshalling is embedded through a small JSON value
model and a total recursive-descent parser.  Two deliberate simplifications,
neither of which is reachable from any claim under scrutiny:
  * JSON numbers are modelled as integers (the API error payloads carry only
    integral `code` values); a document containing a fractional or exponent
    number is treated as unparseable instead of being decoded to a float.
  * Struct-field matching is exact-case (Go additionally falls back to a
    case-insensitive match for keys that differ only in case).
-/

namespace Tabdeal

/-- JSON value model (object / array / string / integral number / bool / null),
mirroring what `json.Unmarshal` produces for `map[string]any`. -/
inductive Json where
  | null : Json
  | bool (b : Bool) : Json
  | num (n : Int) : Json
  | str (s : String) : Json
  | arr (elems : List Json) : Json
  | obj (fields : List (String × Json)) : Json

/-- Drop leading JSON whitespace. -/
def skipWs : List Char → List Char
  | [] => []
  | c :: cs => if c = ' ' ∨ c = '\t' ∨ c = '\n' ∨ c = '\r' then skipWs cs else c :: cs

/-- Value of a hexadecimal digit, if any. -/
def hexVal (c : Char) : Option Nat :=
  if '0' ≤ c ∧ c ≤ '9' then some (c.toNat - 48)
  else if 'a' ≤ c ∧ c ≤ 'f' then some (c.toNat - 87)
  else if 'A' ≤ c ∧ c ≤ 'F' then some (c.toNat - 55)
  else none

/-- Parse the remainder of a JSON string literal (the opening quote already
consumed), handling the escape sequences accepted by `encoding/json`.
Control characters below 0x20 are rejected, as in Go. -/
def pStringChars (acc : List Char) : List Char → Option (String × List Char)
  | [] => none
  | c :: cs =>
    if c = '"' then some (String.mk acc.reverse, cs)
    else if c = '\\' then
      match cs with
      | [] => none
      | e :: cs2 =>
        if e = '"' then pStringChars ('"' :: acc) cs2
        else if e = '\\' then pStringChars ('\\' :: acc) cs2
        else if e = '/' then pStringChars ('/' :: acc) cs2
        else if e = 'b' then pStringChars (Char.ofNat 8 :: acc) cs2
        else if e = 'f' then pStringChars (Char.ofNat 12 :: acc) cs2
        else if e = 'n' then pStringChars ('\n' :: acc) cs2
        else if e = 'r' then pStringChars ('\r' :: acc) cs2
        else if e = 't' then pStringChars ('\t' :: acc) cs2
        else if e = 'u' then
          match cs2 with
          | h1 :: h2 :: h3 :: h4 :: cs3 =>
            match hexVal h1, hexVal h2, hexVal h3, hexVal h4 with
            | some a, some b, some c3, some d =>
              pStringChars (Char.ofNat (((a * 16 + b) * 16 + c3) * 16 + d) :: acc) cs3
            | _, _, _, _ => none
          | _ => none
        else none
    else if c.toNat < 32 then none
    else pStringChars (c :: acc) cs

/-- Consume a maximal run of decimal digits, accumulating their value. -/
def digitsToNat (acc : Nat) : List Char → (Nat × List Char)
  | [] => (acc, [])
  | c :: cs =>
    if '0' ≤ c ∧ c ≤ '9' then digitsToNat (acc * 10 + (c.toNat - 48)) cs
    else (acc, c :: cs)

/-- Parse an integral JSON number whose first digit `d` has been consumed.
A leading zero may not be followed by further digits (as in Go). -/
def pNumTail (neg : Bool) (d : Char) (cs : List Char) : Option (Json × List Char) :=
  if d = '0' then
    match cs with
    | c2 :: _ =>
      if '0' ≤ c2 ∧ c2 ≤ '9' then none else some (Json.num 0, cs)
    | [] => some (Json.num 0, [])
  else
    let p := digitsToNat (d.toNat - 48) cs
    some (Json.num (if neg then -(p.1 : Int) else (p.1 : Int)), p.2)

/-- Match an exact sequence of characters. -/
def expectChars : List Char → List Char → Option (List Char)
  | [], cs => some cs
  | _ :: _, [] => none
  | e :: es, c :: cs => if c = e then expectChars es cs else none

mutual

/-- Fuel-indexed recursive-descent parser for one JSON value. -/
def pVal : Nat → List Char → Option (Json × List Char)
  | 0, _ => none
  | fuel + 1, input =>
    match skipWs input with
    | [] => none
    | c :: cs =>
      if c = 'n' then
        match expectChars ['u', 'l', 'l'] cs with
        | some rest => some (Json.null, rest)
        | none => none
      else if c = 't' then
        match expectChars ['r', 'u', 'e'] cs with
        | some rest => some (Json.bool true, rest)
        | none => none
      else if c = 'f' then
        match expectChars ['a', 'l', 's', 'e'] cs with
        | some rest => some (Json.bool false, rest)
        | none => none
      else if c = '"' then
        match pStringChars [] cs with
        | some (s, rest) => some (Json.str s, rest)
        | none => none
      else if c = '-' then
        match cs with
        | d :: ds => if '0' ≤ d ∧ d ≤ '9' then pNumTail true d ds else none
        | [] => none
      else if '0' ≤ c ∧ c ≤ '9' then pNumTail false c cs
      else if c = '[' then
        match skipWs cs with
        | ']' :: rest => some (Json.arr [], rest)
        | cs2 => pArrItems fuel cs2 []
      else if c = '{' then
        match skipWs cs with
        | '}' :: rest => some (Json.obj [], rest)
        | cs2 => pObjItems fuel cs2 []
      else none

/-- Parse the comma-separated items of a JSON array (opening bracket consumed). -/
def pArrItems : Nat → List Char → List Json → Option (Json × List Char)
  | 0, _, _ => none
  | fuel + 1, input, acc =>
    match pVal fuel input with
    | none => none
    | some (v, rest) =>
      match skipWs rest with
      | ',' :: rest2 => pArrItems fuel rest2 (v :: acc)
      | ']' :: rest2 => some (Json.arr (v :: acc).reverse, rest2)
      | _ => none

/-- Parse the members of a JSON object (opening brace consumed). -/
def pObjItems : Nat → List Char → List (String × Json) → Option (Json × List Char)
  | 0, _, _ => none
  | fuel + 1, input, acc =>
    match skipWs input with
    | '"' :: cs =>
      match pStringChars [] cs with
      | none => none
      | some (k, rest) =>
        match skipWs rest with
        | ':' :: rest2 =>
          match pVal fuel rest2 with
          | none => none
          | some (v, rest3) =>
            match skipWs rest3 with
            | ',' :: rest4 => pObjItems fuel rest4 ((k, v) :: acc)
            | '}' :: rest4 => some (Json.obj ((k, v) :: acc).reverse, rest4)
            | _ => none
        | _ => none
    | _ => none

end

/-- `json.Unmarshal`-style top-level parse: one value, only whitespace after. -/
def jsonParse (s : String) : Option Json :=
  match pVal (2 * s.length + 2) s.data with
  | some (v, rest) => if skipWs rest = [] then some v else none
  | none => none

/-- Insert into an insertion-ordered representation of a Go map: an existing
key is overwritten in place, a new key is appended.  (Go maps are unordered;
the list order is irrelevant to every property stated below, which only ever
inspects key sets and lookups.) -/
def mapInsert {α : Type} (m : List (String × α)) (k : String) (v : α) :
    List (String × α) :=
  if m.any (fun p => p.1 = k) then m.map (fun p => if p.1 = k then (k, v) else p)
  else m ++ [(k, v)]

/-- Insertion sort step for string-keyed pairs (Go's `fmt` prints map keys
in sorted order). -/
def insertSorted (p : String × String) : List (String × String) → List (String × String)
  | [] => [p]
  | q :: qs => if p.1 < q.1 ∨ p.1 = q.1 then p :: q :: qs else q :: insertSorted p qs

/-- Sort string-keyed pairs by key. -/
def sortByKey (l : List (String × String)) : List (String × String) :=
  l.foldr insertSorted []

mutual

/-- Rendering of a decoded JSON value by Go's `fmt.Sprintf` verb `%v`
(numbers decoded into `any` are integral here, see the file comment). -/
def goFmt : Json → String
  | Json.null => "<nil>"
  | Json.bool b => if b then "true" else "false"
  | Json.num n => toString n
  | Json.str s => s
  | Json.arr xs => "[" ++ String.intercalate " " (goFmtList xs) ++ "]"
  | Json.obj fs =>
      "map[" ++ String.intercalate " "
        ((sortByKey (goFmtPairs fs)).map (fun p => p.1 ++ ":" ++ p.2)) ++ "]"

/-- `%v` rendering of each element of a JSON array. -/
def goFmtList : List Json → List String
  | [] => []
  | x :: xs => goFmt x :: goFmtList xs

/-- `%v` rendering of the values of a JSON object. -/
def goFmtPairs : List (String × Json) → List (String × String)
  | [] => []
  | (k, v) :: rest => (k, goFmt v) :: goFmtPairs rest

end

/-- `types.ErrorResponse` (src/utils/signature.go: the `types` part):
documented Tabdeal error fields `code` (int16), `msg`, `detail,omitempty`. -/
structure ErrorResponse where
  code : Int
  message : String
  detail : String

/-- One step of `json.Unmarshal` into `types.ErrorResponse`: a matching key
of the right type fills the field; type mismatches are skipped (Go records
an `UnmarshalTypeError` but keeps going, and the caller discards the error);
`null` leaves the target untouched; unknown keys are ignored.  The `code`
field is an `int16`, so out-of-range numbers are rejected. -/
def applyErrField (e : ErrorResponse) : String × Json → ErrorResponse
  | ("code", Json.num n) =>
      if -32768 ≤ n ∧ n < 32768 then { e with code := n } else e
  | ("msg", Json.str s) => { e with message := s }
  | ("detail", Json.str s) => { e with detail := s }
  | _ => e

/-- `json.Unmarshal(respBody, &base)` with `base : types.ErrorResponse`:
object members are decoded in text order (later duplicates overwrite);
a non-object document leaves the zero value. -/
def decodeErrorResponse (respBody : String) : ErrorResponse :=
  match jsonParse respBody with
  | some (Json.obj fs) => fs.foldl applyErrField ⟨0, "", ""⟩
  | _ => ⟨0, "", ""⟩

/-- `json.Unmarshal(respBody, &raw)` with `raw : map[string]any`: the member
list of a top-level object, with duplicate keys collapsed (last wins);
any other document leaves the map empty. -/
def rawMap (respBody : String) : List (String × Json) :=
  match jsonParse respBody with
  | some (Json.obj fs) => fs.foldl (fun m kv => mapInsert m kv.1 kv.2) []
  | _ => []

/-- `APIError` (unnamed client file): `message` is the embedded
`GoTabdealError.Message`; `fields` is the generic key → string-list map. -/
structure APIError where
  message : String
  code : Int
  msg : String
  detail : String
  statusCode : Nat
  fields : List (String × List String)
deriving DecidableEq

/-- Mutable state threaded through step 2 of `parseErrorResponse`
(the `for k, v := range raw` loop). -/
structure ClassifyState where
  message : String
  detail : String
  fields : List (String × List String)

/-- One iteration of the `range raw` loop in `parseErrorResponse`:
string values are copied verbatim (backfilling `Message`/`Detail` when still
empty), arrays are rendered element-wise with `%v`, every other value kind is
rendered with `%v` as a one-element list. -/
def applyRawField (st : ClassifyState) (kv : String × Json) : ClassifyState :=
  match kv.2 with
  | Json.str val =>
      { message := if kv.1 = "msg" ∧ st.message = "" then val else st.message
        detail := if kv.1 = "detail" ∧ st.detail = "" then val else st.detail
        fields := mapInsert st.fields kv.1 [val] }
  | Json.arr items =>
      { st with fields := mapInsert st.fields kv.1 (goFmtList items) }
  | v =>
      { st with fields := mapInsert st.fields kv.1 [goFmt v] }

/-- Steps 1 and 2 of `parseErrorResponse`: decode the documented fields,
then capture every raw JSON field.  (The Go guard `if base.Code != 0` is an
identity for the `Code` value — the zero value stays zero — but gates the
`fields` entry, which is what is modelled conditionally.) -/
def classifyRaw (statusCode : Nat) (respBody : String) : APIError :=
  let base := decodeErrorResponse respBody
  let f1 : List (String × List String) :=
    if base.code ≠ 0 then mapInsert [] "code" [toString base.code] else []
  let f2 := if base.message ≠ "" then mapInsert f1 "msg" [base.message] else f1
  let f3 := if base.detail ≠ "" then mapInsert f2 "detail" [base.detail] else f2
  let st := (rawMap respBody).foldl applyRawField
    ⟨base.message, base.detail, f3⟩
  { message := st.message
    code := base.code
    msg := base.message
    detail := st.detail
    statusCode := statusCode
    fields := st.fields }

/-- `parseErrorResponse` (unnamed client file, lines 68–128): steps 1–2 via
`classifyRaw`, then the step-3 fallback `Tabdeal API error (<status>)` when no
message was derived, finally mirrored into the embedded error message. -/
def parseErrorResponse (statusCode : Nat) (respBody : String) : APIError :=
  if (classifyRaw statusCode respBody).message = "" then
    { classifyRaw statusCode respBody with
        message := "Tabdeal API error (" ++ toString statusCode ++ ")" }
  else classifyRaw statusCode respBody

/-! ## SHA-256 and HMAC (crypto/hmac, crypto/sha256, encoding/hex)

Machine words are `Nat` values reduced modulo 2^32; byte strings are
`List Nat` with entries below 256. -/

/-- Truncate to a 32-bit word. -/
def w32 (x : Nat) : Nat := x % 4294967296

/-- 32-bit right rotation. -/
def rotr32 (n x : Nat) : Nat := w32 ((x >>> n) ||| (x <<< (32 - n)))

/-- SHA-256 round constants (FIPS 180-4, in decimal). -/
def shaK : List Nat :=
  [1116352408, 1899447441, 3049323471, 3921009573, 961987163,
   1508970993, 2453635748, 2870763221, 3624381080, 310598401,
   607225278, 1426881987, 1925078388, 2162078206, 2614888103,
   3248222580, 3835390401, 4022224774, 264347078, 604807628,
   770255983, 1249150122, 1555081692, 1996064986, 2554220882,
   2821834349, 2952996808, 3210313671, 3336571891, 3584528711,
   113926993, 338241895, 666307205, 773529912, 1294757372,
   1396182291, 1695183700, 1986661051, 2177026350, 2456956037,
   2730485921, 2820302411, 3259730800, 3345764771, 3516065817,
   3600352804, 4094571909, 275423344, 430227734, 506948616,
   659060556, 883997877, 958139571, 1322822218, 1537002063,
   1747873779, 1955562222, 2024104815, 2227730452, 2361852424,
   2428436474, 2756734187, 3204031479, 3329325298]

/-- SHA-256 initial hash value (FIPS 180-4, in decimal). -/
def shaH0 : List Nat :=
  [1779033703, 3144134277, 1013904242,
   2773480762, 1359893119, 2600822924,
   528734635, 1541459225]

/-- SHA-256 message padding: append 0x80, zero bytes, and the 64-bit
big-endian bit length, to a multiple of 64 bytes. -/
def shaPad (msg : List Nat) : List Nat :=
  let len := msg.length
  let zeros := (64 - (len + 9) % 64) % 64
  let bitLen := 8 * len
  msg ++ [0x80] ++ List.replicate zeros 0 ++
    [(bitLen >>> 56) &&& 255, (bitLen >>> 48) &&& 255, (bitLen >>> 40) &&& 255,
     (bitLen >>> 32) &&& 255, (bitLen >>> 24) &&& 255, (bitLen >>> 16) &&& 255,
     (bitLen >>> 8) &&& 255, bitLen &&& 255]

/-- Split a byte string into 64-byte blocks. -/
def chunks64 : List Nat → List (List Nat)
  | [] => []
  | x :: xs => ((x :: xs).take 64) :: chunks64 ((x :: xs).drop 64)
termination_by l => l.length
decreasing_by simp [List.length_drop]; omega

/-- Big-endian 32-bit words of a block. -/
def blockWords : List Nat → List Nat
  | b0 :: b1 :: b2 :: b3 :: rest =>
      (((b0 * 256 + b1) * 256 + b2) * 256 + b3) :: blockWords rest
  | _ => []

/-- σ₀ of the SHA-256 message schedule. -/
def smallSigma0 (x : Nat) : Nat := (rotr32 7 x) ^^^ (rotr32 18 x) ^^^ (x >>> 3)

/-- σ₁ of the SHA-256 message schedule. -/
def smallSigma1 (x : Nat) : Nat := (rotr32 17 x) ^^^ (rotr32 19 x) ^^^ (x >>> 10)

/-- Σ₀ of the SHA-256 compression function. -/
def bigSigma0 (x : Nat) : Nat := (rotr32 2 x) ^^^ (rotr32 13 x) ^^^ (rotr32 22 x)

/-- Σ₁ of the SHA-256 compression function. -/
def bigSigma1 (x : Nat) : Nat := (rotr32 6 x) ^^^ (rotr32 11 x) ^^^ (rotr32 25 x)

/-- SHA-256 choice function. -/
def chFn (x y z : Nat) : Nat := (x &&& y) ^^^ ((x ^^^ 0xffffffff) &&& z)

/-- SHA-256 majority function. -/
def majFn (x y z : Nat) : Nat := (x &&& y) ^^^ (x &&& z) ^^^ (y &&& z)

/-- One extension step of the message schedule: append
w[t] = w[t−16] + σ₀(w[t−15]) + w[t−7] + σ₁(w[t−2]). -/
def shaExtendStep (w : List Nat) : List Nat :=
  let t := w.length
  w ++ [w32 (w.getD (t - 16) 0 + smallSigma0 (w.getD (t - 15) 0) +
             w.getD (t - 7) 0 + smallSigma1 (w.getD (t - 2) 0))]

/-- Full 64-word message schedule of one block. -/
def shaSchedule (block : List Nat) : List Nat :=
  (List.range 48).foldl (fun w _ => shaExtendStep w) (blockWords block)

/-- One round of the SHA-256 compression function. -/
def shaRound (st : List Nat) (kw : Nat × Nat) : List Nat :=
  match st with
  | [a, b, c, d, e, f, g, hh] =>
    let t1 := w32 (hh + bigSigma1 e + chFn e f g + kw.1 + kw.2)
    let t2 := w32 (bigSigma0 a + majFn a b c)
    [w32 (t1 + t2), a, b, c, w32 (d + t1), e, f, g]
  | other => other

/-- Process one 64-byte block. -/
def shaCompress (hs : List Nat) (block : List Nat) : List Nat :=
  let st := (shaK.zip (shaSchedule block)).foldl shaRound hs
  (hs.zip st).map (fun p => w32 (p.1 + p.2))

/-- Big-endian bytes of a 32-bit word. -/
def wordBytes (x : Nat) : List Nat :=
  [(x >>> 24) &&& 255, (x >>> 16) &&& 255, (x >>> 8) &&& 255, x &&& 255]

/-- SHA-256 of a byte string, as 32 bytes. -/
def sha256 (msg : List Nat) : List Nat :=
  (((chunks64 (shaPad msg)).foldl shaCompress shaH0).map wordBytes).flatten

/-- HMAC-SHA256 (crypto/hmac with sha256.New): keys longer than the 64-byte
block are first hashed, then zero-padded; inner pad 0x36, outer pad 0x5c. -/
def hmacSha256 (key msg : List Nat) : List Nat :=
  let k0 := if 64 < key.length then sha256 key else key
  let kp := k0 ++ List.replicate (64 - k0.length) 0
  sha256 ((kp.map (fun b => b ^^^ 0x5c)) ++
          sha256 ((kp.map (fun b => b ^^^ 0x36)) ++ msg))

/-- Lowercase hexadecimal digit. -/
def hexDigit (n : Nat) : Char :=
  if n < 10 then Char.ofNat (48 + n) else Char.ofNat (87 + n)

/-- `hex.EncodeToString`: lowercase hex of a byte string. -/
def hexEncode (bs : List Nat) : String :=
  String.join (bs.map (fun b => String.mk [hexDigit (b / 16), hexDigit (b % 16)]))

/-- UTF-8 encoding of a code point. -/
def utf8Nat (c : Nat) : List Nat :=
  if c < 0x80 then [c]
  else if c < 0x800 then
    [0xc0 ||| (c >>> 6), 0x80 ||| (c &&& 0x3f)]
  else if c < 0x10000 then
    [0xe0 ||| (c >>> 12), 0x80 ||| ((c >>> 6) &&& 0x3f), 0x80 ||| (c &&& 0x3f)]
  else
    [0xf0 ||| (c >>> 18), 0x80 ||| ((c >>> 12) &&& 0x3f),
     0x80 ||| ((c >>> 6) &&& 0x3f), 0x80 ||| (c &&& 0x3f)]

/-- Bytes of a Go string (UTF-8). -/
def strBytes (s : String) : List Nat :=
  (s.data.map (fun c => utf8Nat c.toNat)).flatten

/-- `hex.EncodeToString(hmac.New(sha256.New, secret).Sum(msg))`:
the signature primitive used by `WrapWithSignature`. -/
def hmacSha256Hex (secret msg : String) : String :=
  hexEncode (hmacSha256 (strBytes secret) (strBytes msg))

/-! ## Request signer (src/utils/signature.go, `WrapWithSignature`) -/

/-- One exported field of a flat Go parameter struct, as seen by the
`reflect` loop of `WrapWithSignature`: the Go field name, the raw value of
`Tag.Get("json")` (the full tag value — name and options, empty when the tag
is absent), and the `fmt` verb `%v` rendering of the field's scalar value. -/
structure GoField where
  name : String
  jsonTag : String
  value : String

/-- Key resolution in `WrapWithSignature`: the raw `json` tag value when it
is non-empty and not `"-"`, otherwise the struct field name.  (Go's
`Tag.Get("json")` does not strip tag options, so a tag `symbol,omitempty`
yields the key `symbol,omitempty`.) -/
def fieldKey (f : GoField) : String :=
  if f.jsonTag ≠ "" ∧ f.jsonTag ≠ "-" then f.jsonTag else f.name

/-- The `pairs` slice of `WrapWithSignature`: one `key=value` string per
struct field in declaration order, then `timestamp=<ts>` appended last.
No field is ever skipped — `omitempty` tag options are not interpreted. -/
def signPairs (fields : List GoField) (timestamp : Int) : List String :=
  fields.map (fun f => fieldKey f ++ "=" ++ f.value) ++
    ["timestamp=" ++ toString timestamp]

/-- The `raw` string handed to the HMAC: the pairs joined with `&`. -/
def canonicalString (fields : List GoField) (timestamp : Int) : String :=
  String.intercalate "&" (signPairs fields timestamp)

/-- `WrapWithSignature(inputStruct, apiSecret, timestamp)`: the returned
`map[string]interface{}`, represented in insertion order with Go-map
overwrite semantics; every struct field is stored under its resolved key,
then `timestamp`, then the hex HMAC-SHA256 `signature`. -/
def wrapWithSignature (fields : List GoField) (apiSecret : String)
    (timestamp : Int) : List (String × String) :=
  let base := fields.foldl (fun m f => mapInsert m (fieldKey f) f.value) []
  let sig := hmacSha256Hex apiSecret (canonicalString fields timestamp)
  mapInsert (mapInsert base "timestamp" (toString timestamp)) "signature" sig

/-- `types.BaseSymbolParams` (src/types/baseSymbol.go): fields `Symbol`
(tag `symbol,omitempty`) and `TabdealSymbol` (tag `tabdealSymbol,omitempty`),
as enumerated by the reflection loop. -/
def baseSymbolParams (symbol tabdealSymbol : String) : List GoField :=
  [⟨"Symbol", "symbol,omitempty", symbol⟩,
   ⟨"TabdealSymbol", "tabdealSymbol,omitempty", tabdealSymbol⟩]

/-! ## Client (src/client.go) -/

/-- Package constant `BaseUrl`. -/
def BaseUrl : String := "https://api1.tabdeal.org"

/-- Package constant `Version` — declared in client.go but never read by
`NewClient` or any other function. -/
def Version : String := "v1"

/-- `ClientOptions` (the fields the embedded functions read; `HttpClient`
and `Timeout` configure only the external transport collaborator). -/
structure ClientOptions where
  baseUrl : String
  apiKey : String
  apiSecret : String

/-- `Client` (the fields the embedded functions read).  `version` is the
`Version` field of the Go struct. -/
structure Client where
  baseUrl : String
  version : String
  apiKey : String
  apiSecret : String

/-- `NewClient`: starts from `Client{BaseUrl: BaseUrl}` — every other field
holds its Go zero value, so `Version` is the empty string — then applies the
non-empty option overrides.  The `Version` field is never assigned. -/
def newClient (opts : ClientOptions) : Client :=
  let c0 : Client := { baseUrl := BaseUrl, version := "", apiKey := "", apiSecret := "" }
  let c1 := if opts.baseUrl ≠ "" then { c0 with baseUrl := opts.baseUrl } else c0
  let c2 := if opts.apiKey ≠ "" then { c1 with apiKey := opts.apiKey } else c1
  if opts.apiSecret ≠ "" then { c2 with apiSecret := opts.apiSecret } else c2

/-- `assertAuth`: `some message` is the `GoTabdealError` returned when a
credential is missing (key checked first), `none` is the nil error. -/
def assertAuth (c : Client) : Option String :=
  if c.apiKey = "" then some "api key is empty"
  else if c.apiSecret = "" then some "api secret is empty"
  else none

/-- `createApiURI(method, endpoint)`: GET routes to the read path
`{BaseUrl}/r/api/{Version}{endpoint}`, every other method to the standard
path `{BaseUrl}/api/{Version}{endpoint}`. -/
def createApiURI (c : Client) (method endpoint : String) : String :=
  if method = "GET" then c.baseUrl ++ "/r/api/" ++ c.version ++ endpoint
  else c.baseUrl ++ "/api/" ++ c.version ++ endpoint

/-- The error taxonomy of the client:
`requestError` is `*RequestError` (a `GoTabdealError` plus an operation
label and an underlying cause), `plainError` a bare `*GoTabdealError`
wrapping a cause, `apiError` the classifier's `*APIError`. -/
inductive ClientError where
  | requestError (message operation cause : String) : ClientError
  | plainError (message cause : String) : ClientError
  | apiError (e : APIError) : ClientError
deriving DecidableEq

/-- The `*http.Request` built by `Request` before dispatch: method, final
URL, body bytes and headers.  (`reqBody` is declared in `Request` but never
assigned, so the body is always empty.) -/
structure HttpRequest where
  method : String
  url : String
  body : String
  headers : List (String × String)
deriving DecidableEq

/-- The transport collaborator's answer: HTTP status code and raw body. -/
structure TransportResponse where
  status : Nat
  body : String

/-- The (key, value) record of a raw struct, as handed to
`StructToURLParams` on the unauthenticated path. -/
def structRecord (fields : List GoField) : List (String × String) :=
  fields.map (fun f => (fieldKey f, f.value))

/-- The part of `Request` (src/client.go lines 274–321) that runs before the
transport collaborator is invoked: parameter signing and encoding, query
string attachment, `http.NewRequest`, the JSON content-type header, and — on
authenticated calls — `assertAuth` followed by the API-key header.

`encode` stands for `utils.StructToURLParams`, whose source is outside the
reviewed tree; it is kept abstract, an `Except` value standing for its
`(string, error)` return.  `nowSec` is `time.Now().Unix()`; the signer
receives `nowSec * 1000`.  `http.NewRequest` cannot fail on the URLs this
client builds, so no failure oracle is attached to it. -/
def sentRequest (c : Client) (method url : String) (auth : Bool)
    (body : Option (List GoField))
    (encode : List (String × String) → Except String String)
    (nowSec : Int) : Except ClientError HttpRequest :=
  let urlRes : Except ClientError String :=
    match body with
    | some fields =>
      let record := if auth then wrapWithSignature fields c.apiSecret (nowSec * 1000)
                    else structRecord fields
      match encode record with
      | Except.error e =>
          Except.error (ClientError.requestError
            "failed to convert struct to URL params" "preparing request parameters" e)
      | Except.ok urlParams => Except.ok (url ++ "?" ++ urlParams)
    | none => Except.ok url
  match urlRes with
  | Except.error e => Except.error e
  | Except.ok finalUrl =>
    let req : HttpRequest :=
      { method := method, url := finalUrl, body := "",
        headers := [("Content-Type", "application/json")] }
    if auth then
      match assertAuth c with
      | some msg =>
          Except.error (ClientError.plainError "authentication validation failed" msg)
      | none =>
          Except.ok { req with headers := req.headers ++ [("X-MBX-APIKEY", c.apiKey)] }
    else Except.ok req

/-- `Request` (src/client.go lines 274–365): build the outgoing request via
`sentRequest`, dispatch it to the transport collaborator, then classify the
response — a status outside [200, 300) goes to `parseErrorResponse`; inside
it, a supplied result sink is JSON-decoded, a decode failure becoming a
`RequestError` labelled `parsing response`.

`transport` models `HttpClient.Do` together with `io.ReadAll` (an
`Except.error` is a send/read failure — the two labels are collapsed into
`sending request`, which no claim distinguishes); `decodeResult` models
`json.Unmarshal` into the caller's sink (`some e` is a decode error);
`hasResult` is `result != nil`.  The return value is Go's `error`:
`none` is nil. -/
def request (c : Client) (method url : String) (auth : Bool)
    (body : Option (List GoField))
    (encode : List (String × String) → Except String String)
    (nowSec : Int)
    (transport : HttpRequest → Except String TransportResponse)
    (hasResult : Bool)
    (decodeResult : String → Option String) : Option ClientError :=
  match sentRequest c method url auth body encode nowSec with
  | Except.error e => some e
  | Except.ok req =>
    match transport req with
    | Except.error e =>
        some (ClientError.requestError "failed to send request" "sending request" e)
    | Except.ok resp =>
      if resp.status < 200 ∨ 300 ≤ resp.status then
        some (ClientError.apiError (parseErrorResponse resp.status resp.body))
      else if hasResult then
        match decodeResult resp.body with
        | some e =>
            some (ClientError.requestError "failed to unmarshal response" "parsing response" e)
        | none => none
      else none

/-! ## Helper lemmas -/

/-- Looking up `k` after overwriting every `k`-entry of `m` with `v`
yields `v`, provided some entry carried the key. -/
theorem lookup_map_overwrite {α : Type} (k : String) (v : α) :
    ∀ (m : List (String × α)), m.any (fun p => p.1 = k) = true →
      List.lookup k (m.map (fun p => if p.1 = k then (k, v) else p)) = some v
  | [], h => by simp at h
  | p :: tl, h => by
      by_cases hp : p.1 = k
      · simp only [List.map_cons, if_pos hp]
        simp [List.lookup]
      · have htl : tl.any (fun p => p.1 = k) = true := by
          simp only [List.any_cons, Bool.or_eq_true, decide_eq_true_eq] at h
          rcases h with h | h
          · exact absurd h hp
          · simpa using h
        have hk : k ≠ p.1 := fun he => hp he.symm
        have hbeq : (k == p.1) = false := beq_eq_false_iff_ne.mpr hk
        rw [List.map_cons, if_neg hp]
        simp only [List.lookup, hbeq]
        exact lookup_map_overwrite k v tl htl

/-- Looking up `k` in `m ++ [(k, v)]` yields `v` when no entry of `m`
carries the key. -/
theorem lookup_append_last {α : Type} (k : String) (v : α) :
    ∀ (m : List (String × α)), m.any (fun p => p.1 = k) = false →
      List.lookup k (m ++ [(k, v)]) = some v
  | [], _ => by simp [List.lookup]
  | p :: tl, h => by
      have hsplit : (decide (p.1 = k)) = false ∧ tl.any (fun p => p.1 = k) = false := by
        simpa [List.any_cons] using h
      have hp : ¬ p.1 = k := by simpa using hsplit.1
      have hk : k ≠ p.1 := fun he => hp he.symm
      have hbeq : (k == p.1) = false := beq_eq_false_iff_ne.mpr hk
      simp only [List.cons_append, List.lookup, hbeq]
      exact lookup_append_last k v tl hsplit.2

/-- `mapInsert` stores its value: looking the key up afterwards returns it. -/
theorem lookup_mapInsert {α : Type} (m : List (String × α)) (k : String) (v : α) :
    List.lookup k (mapInsert m k v) = some v := by
  cases h : m.any (fun p => p.1 = k) with
  | true => simpa only [mapInsert, h, if_true] using lookup_map_overwrite k v m h
  | false => simpa only [mapInsert, h, Bool.false_eq_true, if_false] using
      lookup_append_last k v m h

/-- `assertAuth` fails with one of its two messages whenever a credential
is missing. -/
theorem assertAuth_of_missing (c : Client) (hcred : c.apiKey = "" ∨ c.apiSecret = "") :
    assertAuth c = some "api key is empty" ∨ assertAuth c = some "api secret is empty" := by
  unfold assertAuth
  by_cases hk : c.apiKey = ""
  · rw [if_pos hk]; exact Or.inl rfl
  · rcases hcred with h | h
    · exact absurd h hk
    · rw [if_neg hk, if_pos h]; exact Or.inr rfl

/-- On an authenticated call whose encoder succeeds, a failing `assertAuth`
makes `sentRequest` return the wrapping `GoTabdealError`. -/
theorem sentRequest_auth_error (c : Client) (method url : String)
    (body : Option (List GoField))
    (encode : List (String × String) → Except String String) (nowSec : Int)
    (m : String)
    (henc : ∀ r, ∃ s, encode r = Except.ok s)
    (ha : assertAuth c = some m) :
    sentRequest c method url true body encode nowSec =
      Except.error (ClientError.plainError "authentication validation failed" m) := by
  unfold sentRequest
  cases body with
  | none => simp [ha]
  | some fields =>
    obtain ⟨s, hs⟩ := henc (wrapWithSignature fields c.apiSecret (nowSec * 1000))
    simp [hs, ha]

/-- `newClient` never assigns the `Version` field. -/
theorem newClient_version (opts : ClientOptions) : (newClient opts).version = "" := by
  unfold newClient
  by_cases h1 : opts.baseUrl = "" <;> by_cases h2 : opts.apiKey = "" <;>
    by_cases h3 : opts.apiSecret = "" <;> simp [h1, h2, h3]

/-! ## Claim theorems -/

/-- C1: the `signature` field is always the hex HMAC-SHA256, under the
secret, of the `&`-joined `key=value` pairs with `timestamp=<ms>` last — but
the claim's key resolution is wrong on the code: the key is the raw `json`
tag value including its options, not the wire name.  On `BaseSymbolParams`
the first pair is `symbol,omitempty=BTCIRT`, and the resolved key of the
`Symbol` field differs from the wire name `symbol`. -/
theorem c1_signature_formula_key_divergence :
    (∀ (fields : List GoField) (secret : String) (ts : Int),
        List.lookup "signature" (wrapWithSignature fields secret ts) =
          some (hmacSha256Hex secret (canonicalString fields ts))) ∧
    signPairs (baseSymbolParams "BTCIRT" "") 1700000000000 =
      ["symbol,omitempty=BTCIRT", "tabdealSymbol,omitempty=",
       "timestamp=1700000000000"] ∧
    fieldKey ⟨"Symbol", "symbol,omitempty", "BTCIRT"⟩ ≠ "symbol" := by
  refine ⟨fun fields secret ts => ?_, by decide, by decide⟩
  unfold wrapWithSignature
  exact lookup_mapInsert _ _ _

/-- C2: evaluating the signer's canonical string at the pinned test vector
(secret `abc`, `BaseSymbolParams` with `symbol = BTCIRT`, timestamp
1700000000000): the code builds
`symbol,omitempty=BTCIRT&tabdealSymbol,omitempty=&timestamp=1700000000000`,
not the `symbol=BTCIRT&timestamp=1700000000000` the claim pins. -/
theorem c2_pinned_vector_diverges :
    canonicalString (baseSymbolParams "BTCIRT" "") 1700000000000 =
      "symbol,omitempty=BTCIRT&tabdealSymbol,omitempty=&timestamp=1700000000000" ∧
    canonicalString (baseSymbolParams "BTCIRT" "") 1700000000000 ≠
      "symbol=BTCIRT&timestamp=1700000000000" := by
  exact ⟨by decide, by decide⟩

/-- C3: evaluating the augmented record's key list at a struct with an empty
`omitempty` field: the empty `TabdealSymbol` field is NOT dropped (and the
keys carry the tag options), so the key set is not the claimed
`symbol, timestamp, signature` — though `timestamp` and `signature` are
indeed appended last in that order, each exactly once. -/
theorem c3_empty_omitempty_not_dropped :
    (wrapWithSignature (baseSymbolParams "BTCIRT" "") "abc" 1700000000000).map Prod.fst =
      ["symbol,omitempty", "tabdealSymbol,omitempty", "timestamp", "signature"] ∧
    (wrapWithSignature (baseSymbolParams "BTCIRT" "") "abc" 1700000000000).map Prod.fst ≠
      ["symbol", "timestamp", "signature"] := by
  exact ⟨by decide, by decide⟩

/-- C4: `createApiURI` routes GET to the read path
`{base}/r/api/{version}{endpoint}` and POST/DELETE to the standard path
`{base}/api/{version}{endpoint}`, the endpoint appended unchanged. -/
theorem c4_verb_routing (c : Client) (endpoint : String) :
    createApiURI c "GET" endpoint = c.baseUrl ++ "/r/api/" ++ c.version ++ endpoint ∧
    createApiURI c "POST" endpoint = c.baseUrl ++ "/api/" ++ c.version ++ endpoint ∧
    createApiURI c "DELETE" endpoint = c.baseUrl ++ "/api/" ++ c.version ++ endpoint :=
  ⟨rfl, rfl, rfl⟩

/-- C7: the error classifier is a total function whose `message` is never
empty; when steps 1–2 derive no message, the message is exactly the
synthesized string embedding the status code. -/
theorem c7_classifier_message_never_empty (status : Nat) (respBody : String) :
    (parseErrorResponse status respBody).message ≠ "" ∧
    ((classifyRaw status respBody).message = "" →
      (parseErrorResponse status respBody).message =
        "Tabdeal API error (" ++ toString status ++ ")") := by
  constructor
  · by_cases h : (classifyRaw status respBody).message = ""
    · have hmsg : (parseErrorResponse status respBody).message =
          "Tabdeal API error (" ++ toString status ++ ")" := by
        unfold parseErrorResponse
        rw [if_pos h]
      rw [hmsg]
      intro heq
      have hl := congrArg String.length heq
      rw [String.length_append, String.length_append] at hl
      have h1 : ("Tabdeal API error (" : String).length = 19 := rfl
      have h2 : ((")" : String)).length = 1 := rfl
      have h3 : (("" : String)).length = 0 := rfl
      omega
    · have hmsg : (parseErrorResponse status respBody).message =
          (classifyRaw status respBody).message := by
        unfold parseErrorResponse
        rw [if_neg h]
      rw [hmsg]
      exact h
  · intro h
    unfold parseErrorResponse
    rw [if_pos h]

/-- C7 witness: classifying an empty body at status 500 synthesizes the
fallback message. -/
theorem c7_witness :
    (parseErrorResponse 500 "").message = "Tabdeal API error (" ++ toString 500 ++ ")" :=
  (c7_classifier_message_never_empty 500 "").2 (by decide)

/-- C8: classifying the documented body at status 400 yields code −1100,
message `bad param` and `extra ↦ [x]`; classifying an empty body at 500
yields the synthesized message containing `500` (exhibited as the
concatenation of a text before, `500`, and a text after) and an empty field
map. -/
theorem c8_concrete_classifications :
    (parseErrorResponse 400
        "\x7b\"code\":-1100,\"msg\":\"bad param\",\"extra\":\"x\"\x7d").code = -1100 ∧
    (parseErrorResponse 400
        "\x7b\"code\":-1100,\"msg\":\"bad param\",\"extra\":\"x\"\x7d").message = "bad param" ∧
    List.lookup "extra" (parseErrorResponse 400
        "\x7b\"code\":-1100,\"msg\":\"bad param\",\"extra\":\"x\"\x7d").fields = some ["x"] ∧
    (parseErrorResponse 500 "").message ≠ "" ∧
    (parseErrorResponse 500 "").message = "Tabdeal API error (" ++ "500" ++ ")" ∧
    (parseErrorResponse 500 "").fields = [] := by
  refine ⟨by decide, by decide, by decide, by decide, by decide, by decide⟩

/-- C10: `NewClient` leaves the client's `Version` field at the Go zero
value (the package constant `Version = "v1"` is never consulted), so a GET
of `/depth` is routed to `{base}/r/api//depth`, with a double slash and no
version segment. -/
theorem c10_version_never_assigned (opts : ClientOptions) :
    (newClient opts).version = "" ∧
    Version = "v1" ∧
    (newClient opts).version ≠ Version ∧
    createApiURI (newClient opts) "GET" "/depth" =
      (newClient opts).baseUrl ++ "/r/api//depth" := by
  have hv : (newClient opts).version = "" := newClient_version opts
  refine ⟨hv, rfl, by rw [hv]; decide, ?_⟩
  have hstep : createApiURI (newClient opts) "GET" "/depth" =
      (newClient opts).baseUrl ++ "/r/api/" ++ (newClient opts).version ++ "/depth" := rfl
  rw [hstep, hv, String.append_empty, String.append_assoc]
  exact congrArg (fun t => (newClient opts).baseUrl ++ t) (by decide)

/-- C5: once the transport has answered, a status outside [200, 300) makes
the call return exactly the classifier's `APIError`; a status inside
[200, 300) with a result sink whose decode fails makes it return the
`RequestError` labelled `parsing response` — never an `APIError`. -/
theorem c5_response_dispatch
    (c : Client) (method url : String) (auth : Bool) (body : Option (List GoField))
    (encode : List (String × String) → Except String String) (nowSec : Int)
    (transport : HttpRequest → Except String TransportResponse)
    (decodeResult : String → Option String)
    (req : HttpRequest) (resp : TransportResponse)
    (hreq : sentRequest c method url auth body encode nowSec = Except.ok req)
    (hresp : transport req = Except.ok resp) :
    ((resp.status < 200 ∨ 300 ≤ resp.status) →
        request c method url auth body encode nowSec transport true decodeResult =
          some (ClientError.apiError (parseErrorResponse resp.status resp.body))) ∧
    (∀ e, 200 ≤ resp.status → resp.status < 300 → decodeResult resp.body = some e →
        request c method url auth body encode nowSec transport true decodeResult =
          some (ClientError.requestError "failed to unmarshal response"
            "parsing response" e) ∧
        ∀ a, request c method url auth body encode nowSec transport true decodeResult ≠
          some (ClientError.apiError a)) := by
  constructor
  · intro hout
    unfold request
    simp only [hreq, hresp]
    rw [if_pos hout]
  · intro e h1 h2 hdec
    have hneg : ¬(resp.status < 200 ∨ 300 ≤ resp.status) := by omega
    constructor
    · unfold request
      simp only [hreq, hresp]
      rw [if_neg hneg]
      simp [hdec]
    · intro a
      unfold request
      simp only [hreq, hresp]
      rw [if_neg hneg]
      simp [hdec]

/-- C5 witness: a 404 answer surfaces as the classifier's `APIError`; a 200
answer whose decode fails surfaces as the `parsing response` error. -/
theorem c5_witness :
    request (newClient ⟨"", "", ""⟩) "GET" "u" false none (fun _ => Except.ok "") 0
        (fun _ => Except.ok ⟨404, "nope"⟩) true (fun _ => some "boom") =
      some (ClientError.apiError (parseErrorResponse 404 "nope")) ∧
    request (newClient ⟨"", "", ""⟩) "GET" "u" false none (fun _ => Except.ok "") 0
        (fun _ => Except.ok ⟨200, "body"⟩) true (fun _ => some "boom") =
      some (ClientError.requestError "failed to unmarshal response"
        "parsing response" "boom") := by
  constructor
  · exact (c5_response_dispatch (newClient ⟨"", "", ""⟩) "GET" "u" false none
      (fun _ => Except.ok "") 0 (fun _ => Except.ok ⟨404, "nope"⟩)
      (fun _ => some "boom") ⟨"GET", "u", "", [("Content-Type", "application/json")]⟩
      ⟨404, "nope"⟩ rfl rfl).1 (by decide)
  · exact ((c5_response_dispatch (newClient ⟨"", "", ""⟩) "GET" "u" false none
      (fun _ => Except.ok "") 0 (fun _ => Except.ok ⟨200, "body"⟩)
      (fun _ => some "boom") ⟨"GET", "u", "", [("Content-Type", "application/json")]⟩
      ⟨200, "body"⟩ rfl rfl).2 "boom" (by decide) (by decide) rfl).1

/-- C6: an authenticated call on a client missing either credential fails
with the locally raised authentication-configuration error — for every
transport behaviour, hence with zero network activity — and that error is a
bare `GoTabdealError`, never a `RequestError` (the network/transport kind). -/
theorem c6_auth_config_guard
    (c : Client) (method url : String) (body : Option (List GoField))
    (encode : List (String × String) → Except String String) (nowSec : Int)
    (hcred : c.apiKey = "" ∨ c.apiSecret = "")
    (henc : ∀ r, ∃ s, encode r = Except.ok s) :
    ∃ m, (m = "api key is empty" ∨ m = "api secret is empty") ∧
      ∀ (transport : HttpRequest → Except String TransportResponse)
        (hasResult : Bool) (decodeResult : String → Option String),
        request c method url true body encode nowSec transport hasResult decodeResult =
          some (ClientError.plainError "authentication validation failed" m) ∧
        ∀ msg op cause,
          request c method url true body encode nowSec transport hasResult decodeResult ≠
            some (ClientError.requestError msg op cause) := by
  rcases assertAuth_of_missing c hcred with ha | ha
  · refine ⟨"api key is empty", Or.inl rfl, fun transport hasResult decodeResult => ?_⟩
    have hs := sentRequest_auth_error c method url body encode nowSec _ henc ha
    refine ⟨?_, fun msg op cause => ?_⟩
    · unfold request
      rw [hs]
    · unfold request
      rw [hs]
      simp
  · refine ⟨"api secret is empty", Or.inr rfl, fun transport hasResult decodeResult => ?_⟩
    have hs := sentRequest_auth_error c method url body encode nowSec _ henc ha
    refine ⟨?_, fun msg op cause => ?_⟩
    · unfold request
      rw [hs]
    · unfold request
      rw [hs]
      simp

/-- C6 witness: a client built with an empty API key fails an authenticated
call with the authentication-configuration error. -/
theorem c6_witness :
    ∃ m, request (newClient ⟨"", "", "s"⟩) "POST" "u" true none
        (fun _ => Except.ok "") 0 (fun _ => Except.ok ⟨200, ""⟩) false
        (fun _ => none) =
      some (ClientError.plainError "authentication validation failed" m) := by
  obtain ⟨m, _, hall⟩ := c6_auth_config_guard (newClient ⟨"", "", "s"⟩) "POST" "u"
    none (fun _ => Except.ok "") 0 (Or.inl (by decide)) (fun r => ⟨"", rfl⟩)
  exact ⟨m, (hall (fun _ => Except.ok ⟨200, ""⟩) false (fun _ => none)).1⟩

/-- C9: for every verb, a non-nil parameter record whose encoding succeeds
is appended to the URL after `?`, while the request handed to the transport
always has an empty body and carries the JSON content-type header. -/
theorem c9_query_string_not_body
    (c : Client) (method url : String) (auth : Bool) (fields : List GoField)
    (encode : List (String × String) → Except String String) (nowSec : Int)
    (s : String) (req : HttpRequest)
    (henc : encode (if auth then wrapWithSignature fields c.apiSecret (nowSec * 1000)
                    else structRecord fields) = Except.ok s)
    (hreq : sentRequest c method url auth (some fields) encode nowSec = Except.ok req) :
    req.method = method ∧
    req.url = url ++ "?" ++ s ∧
    req.body = "" ∧
    ("Content-Type", "application/json") ∈ req.headers := by
  cases auth with
  | false =>
    have he : encode (structRecord fields) = Except.ok s := by simpa using henc
    have hval : sentRequest c method url false (some fields) encode nowSec =
        Except.ok ⟨method, url ++ "?" ++ s, "",
          [("Content-Type", "application/json")]⟩ := by
      unfold sentRequest
      simp [he]
    rw [hval] at hreq
    obtain rfl := Except.ok.inj hreq
    exact ⟨rfl, rfl, rfl, by simp⟩
  | true =>
    have he : encode (wrapWithSignature fields c.apiSecret (nowSec * 1000)) =
        Except.ok s := by simpa using henc
    cases hassert : assertAuth c with
    | some m =>
      have hval : sentRequest c method url true (some fields) encode nowSec =
          Except.error (ClientError.plainError "authentication validation failed" m) := by
        unfold sentRequest
        simp [he, hassert]
      rw [hval] at hreq
      exact absurd hreq (by simp)
    | none =>
      have hval : sentRequest c method url true (some fields) encode nowSec =
          Except.ok ⟨method, url ++ "?" ++ s, "",
            [("Content-Type", "application/json"), ("X-MBX-APIKEY", c.apiKey)]⟩ := by
        unfold sentRequest
        simp [he, hassert]
      rw [hval] at hreq
      obtain rfl := Except.ok.inj hreq
      exact ⟨rfl, rfl, rfl, by simp⟩

/-- C9 witness: an authenticated POST with `BaseSymbolParams` and a concrete
encoder output `P` yields a dispatched request with query-string URL, empty
body and the JSON content-type header. -/
theorem c9_witness :
    (HttpRequest.mk "POST" ("u" ++ "?" ++ "P") ""
        [("Content-Type", "application/json"), ("X-MBX-APIKEY", "k")]).method = "POST" ∧
    (HttpRequest.mk "POST" ("u" ++ "?" ++ "P") ""
        [("Content-Type", "application/json"), ("X-MBX-APIKEY", "k")]).url =
      "u" ++ "?" ++ "P" ∧
    (HttpRequest.mk "POST" ("u" ++ "?" ++ "P") ""
        [("Content-Type", "application/json"), ("X-MBX-APIKEY", "k")]).body = "" ∧
    ("Content-Type", "application/json") ∈
      (HttpRequest.mk "POST" ("u" ++ "?" ++ "P") ""
        [("Content-Type", "application/json"), ("X-MBX-APIKEY", "k")]).headers :=
  c9_query_string_not_body (newClient ⟨"", "k", "s"⟩) "POST" "u" true
    (baseSymbolParams "BTCIRT" "") (fun _ => Except.ok "P") 0 "P"
    (HttpRequest.mk "POST" ("u" ++ "?" ++ "P") ""
      [("Content-Type", "application/json"), ("X-MBX-APIKEY", "k")])
    rfl rfl

end Tabdeal
